import Mathlib

/-!
# Environment logger for the Arduino Nano 33 BLE Sense (`src/nano33.cpp`)

A shallow embedding of the sketch: its globals, `setup()`, `loop()` with the
bounded wait for the APDS9960 colour sensor, and the `sprintf` line.

* The hardware and the drivers are the environment.  Every call the sketch makes
  on them (watchdog register writes, `delay`, sensor driver calls, serial output,
  LED writes) is recorded, in program order, in a trace of `Event`s.
* What the drivers answer during one `loop()` iteration is a `Sensors` record; the
  answers of `APDS.colorAvailable()` are a function of the call index inside the
  iteration, so every sequence of answers is covered.
* The `while` statement is run with fuel; the theorems show that ten units are
  always enough.
* `float` values are finite values `(-1)^neg * mant * 2^exp`, infinities or NaNs; the
  sketch never computes with them, it only stores them and hands them to `sprintf`.
-/

namespace Nano33

/-! ## Values -/

/-- A C `float` as a driver can return it: a finite value, the number
`(-1)^neg * mant * 2^exp`, or an infinity, or a NaN (each with its sign bit). -/
inductive Float32 where
  | finite (neg : Bool) (mant : Nat) (exp : Int)
  | inf (neg : Bool)
  | nan (neg : Bool)
  deriving DecidableEq, Repr

/-- The value is finite. -/
def Float32.isFinite : Float32 → Bool
  | Float32.finite _ _ _ => true
  | _ => false

/-- The value lies in the finite range of IEEE-754 binary32: a 24-bit significand and
an exponent of the last place between `-149` and `104`. -/
def Float32.isBinary32 : Float32 → Prop
  | Float32.finite _ mant exp => mant < 2 ^ 24 ∧ -149 ≤ exp ∧ exp ≤ 104
  | _ => False

instance : (x : Float32) → Decidable x.isBinary32
  | Float32.finite _ mant exp =>
    inferInstanceAs (Decidable (mant < 2 ^ 24 ∧ -149 ≤ exp ∧ exp ≤ 104))
  | Float32.inf _ => isFalse (fun h => h)
  | Float32.nan _ => isFalse (fun h => h)

/-- The `float` zero of a zero-initialised global. -/
def Float32.zero : Float32 := Float32.finite false 0 0

/-! ## Constants and globals of the sketch -/

/-- The constant `#define APDS_MAX 8`: "Nr of retries for light sensor to become available". -/
def APDS_MAX : Nat := 8

/-- The global `short srelax = 2;` (never assigned afterwards). -/
def srelax : Nat := 2

/-- The global `short endrelax = 100;` (never assigned afterwards). -/
def endrelax : Nat := 100

/-- The global `int wdt = 6;` watchdog timeout in seconds (never assigned afterwards). -/
def wdt : Int := 6

/-- Arduino `LOW`. -/
def LOW : Int := 0

/-- Arduino `HIGH`. -/
def HIGH : Int := 1

/-- The mutable globals of the sketch. `r, g, b, c` are C `int`s; `linebuf_all` holds the
text last written by `sprintf`. -/
structure Globals where
  temperature : Float32
  humidity : Float32
  pressure : Float32
  r : Int
  g : Int
  b : Int
  c : Int
  linebuf_all : String
  ledState : Int
  deriving DecidableEq

/-- The globals at start-up: C++ zero-initialises them, `ledState = LOW`. -/
def Globals.init : Globals :=
  ⟨Float32.zero, Float32.zero, Float32.zero, 0, 0, 0, 0, "", LOW⟩

/-! ## The environment -/

/-- One call of the sketch on the hardware or on a driver. -/
inductive Event where
  | serialBegin (baud : Nat)
  | wdtConfig (v : Nat)
  | wdtCrv (v : Int)
  | wdtRren (v : Nat)
  | wdtTasksStart (v : Nat)
  | wdtReload
  | delay (ms : Nat)
  | htsBegin
  | baroBegin
  | apdsBegin
  | pinModeOutput
  | colorAvailable (answer : Bool)
  | readColor
  | readTemperature
  | readHumidity
  | readPressure
  | serialPrintln (line : String)
  | digitalWrite (level : Int)
  deriving DecidableEq

/-- What the sensor drivers answer during one `loop()` iteration. `colorAvailable k` is the
answer of the `k`-th call (counted from 0) of `APDS.colorAvailable()` in the iteration;
`readColor` holds the four values `APDS.readColor(r, g, b, c)` stores. -/
structure Sensors where
  colorAvailable : Nat → Bool
  readColor : Int × Int × Int × Int
  readTemperature : Float32
  readHumidity : Float32
  readPressure : Float32

/-! ## `sprintf` -/

/-- The value `mant * 2^exp * 10^prec` rounded to the nearest integer, ties to even: the
digits `%.<prec>f` prints for a finite value (C standard 7.21.6.1 with IEC 60559 correct
rounding). -/
def scaledRound (prec : Nat) (mant : Nat) (exp : Int) : Nat :=
  let num := mant * 10 ^ prec
  if 0 ≤ exp then num * 2 ^ exp.toNat
  else
    let d := 2 ^ (-exp).toNat
    let q := num / d
    let rem := num % d
    if 2 * rem < d then q
    else if d < 2 * rem then q + 1
    else if q % 2 = 0 then q else q + 1

/-- Left-pad a digit string with `0` up to `width` characters. -/
def zeroPad (width : Nat) (s : String) : String :=
  String.mk (List.replicate (width - s.length) '0') ++ s

/-- The conversion `%.<prec>f`: sign, integer digits, point and `prec` decimals for a
finite value; `inf` or `nan` after the sign for an infinity or a NaN (C standard
7.21.6.1). -/
def fmtFixed (prec : Nat) : Float32 → String
  | Float32.finite neg mant exp =>
    (if neg then "-" else "") ++ Nat.repr (scaledRound prec mant exp / 10 ^ prec) ++
      (if prec = 0 then ""
       else "." ++ zeroPad prec (Nat.repr (scaledRound prec mant exp % 10 ^ prec)))
  | Float32.inf neg => (if neg then "-" else "") ++ "inf"
  | Float32.nan neg => (if neg then "-" else "") ++ "nan"

/-- The conversion `%u` applied to an `int` argument: the 32-bit pattern read as unsigned. -/
def fmtU (v : Int) : String :=
  Nat.repr (v % 2 ^ 32).toNat

/-- The light fields `%u,%u,%u,%u` of the line. -/
def lightFields (r g b c : Int) : String :=
  fmtU r ++ "," ++ fmtU g ++ "," ++ fmtU b ++ "," ++ fmtU c

/-- The text `sprintf(linebuf_all, "t-h-p,%.2f,%.1f,%.2f,l,%u,%u,%u,%u", temperature,
humidity, pressure, r, g, b, c)` produces. -/
def sprintfLine (temperature humidity pressure : Float32) (r g b c : Int) : String :=
  "t-h-p," ++ fmtFixed 2 temperature ++ "," ++ fmtFixed 1 humidity ++ "," ++
    fmtFixed 2 pressure ++ ",l," ++ lightFields r g b c

/-! ## `setup()` -/

/-- The calls of `setup()` in program order; `Serial.begin` comes first, then the four
watchdog register writes, then the driver initialisations, each followed by
`delay(srelax)`. -/
def setupTrace : List Event :=
  [ Event.serialBegin 9600,
    Event.wdtConfig 1,
    Event.wdtCrv (wdt * 32768 + 1),
    Event.wdtRren 1,
    Event.wdtTasksStart 1,
    Event.delay srelax,
    Event.htsBegin,
    Event.delay srelax,
    Event.baroBegin,
    Event.delay srelax,
    Event.readPressure,
    Event.delay srelax,
    Event.apdsBegin,
    Event.delay srelax,
    Event.pinModeOutput,
    Event.delay srelax ]

/-- The body of `setup()`: `firstPressure` is what the throw-away `BARO.readPressure` returns. -/
def setup (firstPressure : Float32) (gl : Globals) : Globals × List Event :=
  ({ gl with pressure := firstPressure }, setupTrace)

/-! ## `loop()` -/

/-- The state of the readiness loop: the local `short apds_loop`, the number of
`colorAvailable()` calls made so far in the iteration, and the trace so far. -/
structure Poll where
  apds_loop : Nat
  calls : Nat
  trace : List Event
  deriving DecidableEq

/-- A C `while (cond) body` whose condition has side effects, run with fuel: one unit
per evaluation of the condition. -/
def whileFuel {σ : Type} (cond : σ → Bool × σ) (body : σ → σ) : Nat → σ → Option σ
  | 0, _ => none
  | fuel + 1, s =>
    match cond s with
    | (true, s1) => whileFuel cond body fuel (body s1)
    | (false, s1) => some s1

/-- The condition `!APDS.colorAvailable() && apds_loop <= APDS_MAX`: the driver is called
first, the counter is compared only when it answered `false`. -/
def pollCond (env : Sensors) (s : Poll) : Bool × Poll :=
  let answer := env.colorAvailable s.calls
  (!answer && decide (s.apds_loop ≤ APDS_MAX),
   { s with calls := s.calls + 1, trace := s.trace ++ [Event.colorAvailable answer] })

/-- The body `delay(200); apds_loop++;`. -/
def pollBody (s : Poll) : Poll :=
  { s with apds_loop := s.apds_loop + 1, trace := s.trace ++ [Event.delay 200] }

/-- The statements of `loop()` after the `while`: the guarded `readColor`, the three
unconditional reads, `sprintf`, `Serial.println`, the LED toggle and the final delay. -/
def afterPoll (env : Sensors) (gl : Globals) (s : Poll) : Globals × List Event :=
  let read := decide (s.apds_loop ≤ APDS_MAX)
  let g1 : Globals :=
    if read then
      { gl with r := env.readColor.1, g := env.readColor.2.1,
                b := env.readColor.2.2.1, c := env.readColor.2.2.2 }
    else gl
  let t1 := if read then s.trace ++ [Event.readColor, Event.delay srelax] else s.trace
  let g2 := { g1 with temperature := env.readTemperature }
  let g3 := { g2 with humidity := env.readHumidity }
  let g4 := { g3 with pressure := env.readPressure }
  let line := sprintfLine g4.temperature g4.humidity g4.pressure g4.r g4.g g4.b g4.c
  let g5 := { g4 with linebuf_all := line }
  let g6 := { g5 with ledState := if g5.ledState ≠ 0 then LOW else HIGH }
  (g6,
   t1 ++ [Event.readTemperature, Event.delay srelax,
          Event.readHumidity, Event.delay srelax,
          Event.readPressure, Event.delay srelax,
          Event.serialPrintln line,
          Event.digitalWrite g6.ledState,
          Event.delay endrelax])

/-- One iteration of `loop()`: the watchdog reload, `short apds_loop = 0`, the readiness
loop, then the rest. `none` only when the fuel runs out inside the `while`. -/
def loop (fuel : Nat) (env : Sensors) (gl : Globals) : Option (Globals × List Event) :=
  match whileFuel (pollCond env) pollBody fuel ⟨0, 0, [Event.wdtReload]⟩ with
  | none => none
  | some s => some (afterPoll env gl s)

/-- The sketch as Arduino runs it for a list of iterations: `loop()` once per element of
`envs` (the sensor answers of that iteration), threading the globals and appending traces. -/
def runLoops (fuel : Nat) : List Sensors → Globals → Option (Globals × List Event)
  | [], gl => some (gl, [])
  | env :: rest, gl =>
    match loop fuel env gl with
    | none => none
    | some (g1, t1) =>
      match runLoops fuel rest g1 with
      | none => none
      | some (g2, t2) => some (g2, t1 ++ t2)

/-- The program from reset: `setup()` and then `loop()` once per element of `envs`. -/
def run (fuel : Nat) (firstPressure : Float32) (envs : List Sensors) :
    Option (Globals × List Event) :=
  match runLoops fuel envs (setup firstPressure Globals.init).1 with
  | none => none
  | some (gl, t) => some (gl, setupTrace ++ t)

/-! ## Observations on traces -/

/-- Number of `APDS.colorAvailable()` calls in a trace. -/
def availChecks (t : List Event) : Nat :=
  t.countP (fun e => match e with | Event.colorAvailable _ => true | _ => false)

/-- Milliseconds a single call spends in `delay`. -/
def Event.delayMs : Event → Nat
  | Event.delay ms => ms
  | _ => 0

/-- Sum of all `delay` arguments of a trace, in milliseconds. -/
def totalDelay (t : List Event) : Nat :=
  (t.map Event.delayMs).sum

/-- The lines handed to `Serial.println`, in order. -/
def linesOf (t : List Event) : List String :=
  t.filterMap (fun e => match e with | Event.serialPrintln l => some l | _ => none)

/-- The call is a call on a sensor driver (HTS221, LPS22HB or APDS9960). -/
def Event.isSensorCall : Event → Bool
  | Event.htsBegin => true
  | Event.baroBegin => true
  | Event.apdsBegin => true
  | Event.colorAvailable _ => true
  | Event.readColor => true
  | Event.readTemperature => true
  | Event.readHumidity => true
  | Event.readPressure => true
  | _ => false

/-- The call writes one of the watchdog start-up registers (`CONFIG`, `CRV`, `RREN`,
`TASKS_START`). -/
def Event.isWdtArm : Event → Bool
  | Event.wdtConfig _ => true
  | Event.wdtCrv _ => true
  | Event.wdtRren _ => true
  | Event.wdtTasksStart _ => true
  | _ => false

/-! ## Example inputs -/

/-- The colour sensor never has data. -/
def neverAvailable : Nat → Bool := fun _ => false

/-- The colour sensor has data at the first call. -/
def alwaysAvailable : Nat → Bool := fun _ => true

/-- The colour sensor has data only from the call with index `k` on. -/
def availableFrom (k : Nat) : Nat → Bool := fun i => decide (k ≤ i)

/-- The value 23.456 as binary32: `12297699 * 2^-19`. -/
def f23_456 : Float32 := Float32.finite false 12297699 (-19)

/-- The value 41.23 as binary32: `10808197 * 2^-18`. -/
def f41_23 : Float32 := Float32.finite false 10808197 (-18)

/-- The value 1013.2567 as binary32: `16601198 * 2^-14`. -/
def f1013_2567 : Float32 := Float32.finite false 16601198 (-14)

/-- The drivers of the end-to-end scenario: 23.456 degrees, 41.23 %RH, 1013.2567 mbar,
light (120, 98, 87, 255), with the given availability answers. -/
def scenario (avail : Nat → Bool) : Sensors :=
  ⟨avail, (120, 98, 87, 255), f23_456, f41_23, f1013_2567⟩

/-! ## Definitions used in the statements -/

/-- The calls of `k` unsuccessful rounds of the readiness loop: a `colorAvailable()` that
answers `false`, then `delay(200)`. -/
def polls : Nat → List Event
  | 0 => []
  | k + 1 => Event.colorAvailable false :: Event.delay 200 :: polls k

/-- The state in which the readiness loop stops after `k` unsuccessful rounds, started
from `s`. -/
def pollExit (env : Sensors) (s : Poll) (k : Nat) : Poll :=
  ⟨s.apds_loop + k, s.calls + k + 1,
   s.trace ++ polls k ++ [Event.colorAvailable (env.colorAvailable (s.calls + k))]⟩

/-- The state of the readiness loop when it stops after `k` unsuccessful rounds. -/
def exitState (env : Sensors) (k : Nat) : Poll :=
  ⟨k, k + 1, Event.wdtReload :: (polls k ++ [Event.colorAvailable (env.colorAvailable k)])⟩

/-- The calls of `loop()` after the readiness loop stopped after `k` rounds. -/
def tailTrace (env : Sensors) (gl : Globals) (k : Nat) : List Event :=
  (if k ≤ APDS_MAX then [Event.readColor, Event.delay srelax] else []) ++
    [Event.readTemperature, Event.delay srelax,
     Event.readHumidity, Event.delay srelax,
     Event.readPressure, Event.delay srelax,
     Event.serialPrintln (afterPoll env gl (exitState env k)).1.linebuf_all,
     Event.digitalWrite (afterPoll env gl (exitState env k)).1.ledState,
     Event.delay endrelax]

/-- What a reader of the serial stream takes as the light fields of a line: the text
after the first `l` and the comma that follows it. -/
def lightOf (line : String) : String :=
  String.mk ((line.data.dropWhile (fun ch => ch != 'l')).drop 2)

/-- The drivers of an iteration that reads light (10, 20, 30, 40) at the first check. -/
def prevScenario : Sensors :=
  ⟨alwaysAvailable, (10, 20, 30, 40), f23_456, f41_23, f1013_2567⟩

/-- What that iteration leaves behind when run from the start-up globals. -/
def prevResult : Globals × List Event :=
  afterPoll prevScenario Globals.init (exitState prevScenario 0)

/-- The largest finite binary32 value, negated: `-(2^24 - 1) * 2^104`. -/
def fNegMax : Float32 := Float32.finite true (2 ^ 24 - 1) 104

/-- The calls of `loop()` before `Serial.println` when the readiness loop stopped after
`k` rounds. -/
def beforePrint (env : Sensors) (k : Nat) : List Event :=
  Event.wdtReload :: (polls k ++ Event.colorAvailable (env.colorAvailable k) ::
    ((if k ≤ APDS_MAX then [Event.readColor, Event.delay srelax] else []) ++
     [Event.readTemperature, Event.delay srelax,
      Event.readHumidity, Event.delay srelax,
      Event.readPressure, Event.delay srelax]))

/-- One of the first `APDS_MAX + 1` availability checks of the iteration answers `true`. -/
def readsColor (env : Sensors) : Bool :=
  (List.range (APDS_MAX + 1)).any env.colorAvailable

/-- The light values held after an iteration: those of `readColor` when it is called,
the previous ones otherwise. -/
def lightAfter (env : Sensors) (gl : Globals) : Int × Int × Int × Int :=
  if readsColor env then env.readColor else (gl.r, gl.g, gl.b, gl.c)

/-- The line an iteration prints, from the drivers' answers and the previous light values. -/
def lineOf (env : Sensors) (gl : Globals) : String :=
  sprintfLine env.readTemperature env.readHumidity env.readPressure
    (lightAfter env gl).1 (lightAfter env gl).2.1 (lightAfter env gl).2.2.1
    (lightAfter env gl).2.2.2

/-- Split a text at its commas. -/
def splitCommas : List Char → List (List Char)
  | [] => [[]]
  | ch :: rest =>
    if ch = ',' then [] :: splitCommas rest
    else
      match splitCommas rest with
      | [] => [[ch]]
      | f :: fs => (ch :: f) :: fs

/-- The comma-separated fields of a line, as a reader of the serial stream sees them. -/
def fieldsOf (line : String) : List String :=
  (splitCommas line.data).map String.mk

/-- The text is a decimal number with exactly `prec` decimals: an optional `-`, at least
one digit, a point, and `prec` digits. -/
def isFixedText (prec : Nat) (s : String) : Bool :=
  let body := if s.data.head? = some '-' then s.data.tail else s.data
  match body.dropWhile Char.isDigit with
  | ch :: frac =>
    ch == '.' && !(body.takeWhile Char.isDigit).isEmpty && frac.length == prec &&
      frac.all Char.isDigit
  | [] => false

/-- The text is an unsigned decimal integer: at least one character, all digits. -/
def isUnsignedText (s : String) : Bool :=
  !s.data.isEmpty && s.data.all Char.isDigit

/-- The line has the nine fields of the format, in order: the tag `t-h-p`, temperature
with 2 decimals, humidity with 1 decimal, pressure with 2 decimals, the tag `l`, and four
unsigned decimal integers. -/
def wellFormedLine (line : String) : Bool :=
  match fieldsOf line with
  | [tag, t, h, p, l, r, g, b, c] =>
    tag == "t-h-p" && isFixedText 2 t && isFixedText 1 h && isFixedText 2 p && l == "l" &&
      isUnsignedText r && isUnsignedText g && isUnsignedText b && isUnsignedText c
  | _ => false

/-- The drivers of the end-to-end scenario with a temperature read that returns NaN. -/
def nanScenario : Sensors :=
  ⟨alwaysAvailable, (120, 98, 87, 255), Float32.nan false, f41_23, f1013_2567⟩

/-! ## The readiness loop -/

theorem whileFuel_poll (env : Sensors) :
    ∀ (fuel : Nat) (s : Poll), s.apds_loop ≤ APDS_MAX + 1 →
      APDS_MAX + 2 ≤ fuel + s.apds_loop →
      ∃ k, s.apds_loop + k ≤ APDS_MAX + 1 ∧
        whileFuel (pollCond env) pollBody fuel s = some (pollExit env s k) ∧
        (∀ j, j < k → env.colorAvailable (s.calls + j) = false) ∧
        (env.colorAvailable (s.calls + k) = true ∨ s.apds_loop + k = APDS_MAX + 1) := by
  intro fuel
  induction fuel with
  | zero =>
    intro s h1 h2
    omega
  | succ n ih =>
    intro s h1 h2
    cases hans : env.colorAvailable s.calls with
    | true =>
      refine ⟨0, by omega, ?_, ?_, ?_⟩
      · simp [whileFuel, pollCond, pollExit, polls, hans]
      · intro j hj; omega
      · left; simpa using hans
    | false =>
      by_cases hle : s.apds_loop ≤ APDS_MAX
      · obtain ⟨k, hk1, hk2, hk3, hk4⟩ :=
          ih (pollBody (pollCond env s).2) (by simp [pollBody, pollCond]; omega)
            (by simp [pollBody, pollCond]; omega)
        refine ⟨k + 1, ?_, ?_, ?_, ?_⟩
        · simp [pollBody, pollCond] at hk1; omega
        · have hc : pollCond env s = (true, (pollCond env s).2) := by
            simp [pollCond, hans, hle]
          rw [whileFuel, hc]
          simp only []
          rw [hk2]
          simp [pollExit, pollBody, pollCond, polls, hans, Nat.add_assoc, Nat.add_comm 1 k]
        · intro j hj
          cases j with
          | zero => simpa using hans
          | succ i =>
            have := hk3 i (by omega)
            simpa [pollBody, pollCond, Nat.add_assoc, Nat.add_comm 1 i] using this
        · simpa [pollBody, pollCond, Nat.add_assoc, Nat.add_comm 1 k] using hk4
      · have h9 : s.apds_loop = APDS_MAX + 1 := by omega
        refine ⟨0, by omega, ?_, ?_, ?_⟩
        · simp [whileFuel, pollCond, pollExit, polls, hans, hle]
        · intro j hj; omega
        · right; simpa using h9

/-- With ten units of fuel or more, `loop()` returns: the readiness loop stops after some
`k ≤ APDS_MAX + 1` unsuccessful rounds, `k` being the index of the first `true` answer, or
`APDS_MAX + 1` when the first `APDS_MAX + 1` answers are all `false`. -/
theorem loop_spec (fuel : Nat) (env : Sensors) (gl : Globals) :
    ∃ k, k ≤ APDS_MAX + 1 ∧
      loop (fuel + (APDS_MAX + 2)) env gl = some (afterPoll env gl (exitState env k)) ∧
      (∀ j, j < k → env.colorAvailable j = false) ∧
      (env.colorAvailable k = true ∨ k = APDS_MAX + 1) := by
  obtain ⟨k, hk1, hk2, hk3, hk4⟩ :=
    whileFuel_poll env (fuel + (APDS_MAX + 2)) ⟨0, 0, [Event.wdtReload]⟩
      (by simp) (by simp)
  refine ⟨k, by simpa using hk1, ?_, ?_, ?_⟩
  · simp only [loop, hk2]
    simp [pollExit, exitState]
  · intro j hj; simpa using hk3 j hj
  · simpa using hk4

/-! ## Observations on the trace of one iteration -/

theorem availChecks_append (t1 t2 : List Event) :
    availChecks (t1 ++ t2) = availChecks t1 + availChecks t2 := by
  simp [availChecks]

theorem totalDelay_append (t1 t2 : List Event) :
    totalDelay (t1 ++ t2) = totalDelay t1 + totalDelay t2 := by
  simp [totalDelay]

theorem linesOf_append (t1 t2 : List Event) :
    linesOf (t1 ++ t2) = linesOf t1 ++ linesOf t2 := by
  simp [linesOf]

theorem availChecks_polls (k : Nat) : availChecks (polls k) = k := by
  induction k with
  | zero => rfl
  | succ n ih =>
    have h : polls (n + 1) = [Event.colorAvailable false, Event.delay 200] ++ polls n := rfl
    rw [h, availChecks_append, ih]
    simp [availChecks]
    omega

theorem totalDelay_polls (k : Nat) : totalDelay (polls k) = 200 * k := by
  induction k with
  | zero => rfl
  | succ n ih =>
    have h : polls (n + 1) = [Event.colorAvailable false, Event.delay 200] ++ polls n := rfl
    rw [h, totalDelay_append, ih]
    simp [totalDelay, Event.delayMs]
    omega

theorem linesOf_polls (k : Nat) : linesOf (polls k) = [] := by
  induction k with
  | zero => rfl
  | succ n ih =>
    have h : polls (n + 1) = [Event.colorAvailable false, Event.delay 200] ++ polls n := rfl
    rw [h, linesOf_append, ih]
    simp [linesOf]

theorem mem_polls {e : Event} {k : Nat} (h : e ∈ polls k) :
    e = Event.colorAvailable false ∨ e = Event.delay 200 := by
  induction k with
  | zero => simp [polls] at h
  | succ n ih =>
    simp only [polls, List.mem_cons] at h
    rcases h with h | h | h
    · exact Or.inl h
    · exact Or.inr h
    · exact ih h

theorem afterPoll_trace (env : Sensors) (gl : Globals) (k : Nat) :
    (afterPoll env gl (exitState env k)).2 =
      Event.wdtReload :: (polls k ++ Event.colorAvailable (env.colorAvailable k) ::
        tailTrace env gl k) := by
  by_cases h : k ≤ APDS_MAX <;> simp [afterPoll, exitState, tailTrace, h]

theorem afterPoll_linebuf (env : Sensors) (gl : Globals) (s : Poll) :
    (afterPoll env gl s).1.linebuf_all =
      sprintfLine (afterPoll env gl s).1.temperature (afterPoll env gl s).1.humidity
        (afterPoll env gl s).1.pressure (afterPoll env gl s).1.r (afterPoll env gl s).1.g
        (afterPoll env gl s).1.b (afterPoll env gl s).1.c := by
  simp [afterPoll]

theorem afterPoll_thp (env : Sensors) (gl : Globals) (s : Poll) :
    (afterPoll env gl s).1.temperature = env.readTemperature ∧
    (afterPoll env gl s).1.humidity = env.readHumidity ∧
    (afterPoll env gl s).1.pressure = env.readPressure := by
  simp [afterPoll]

theorem afterPoll_light_read (env : Sensors) (gl : Globals) (s : Poll)
    (h : s.apds_loop ≤ APDS_MAX) :
    (afterPoll env gl s).1.r = env.readColor.1 ∧
    (afterPoll env gl s).1.g = env.readColor.2.1 ∧
    (afterPoll env gl s).1.b = env.readColor.2.2.1 ∧
    (afterPoll env gl s).1.c = env.readColor.2.2.2 := by
  simp [afterPoll, h]

theorem afterPoll_light_kept (env : Sensors) (gl : Globals) (s : Poll)
    (h : ¬ s.apds_loop ≤ APDS_MAX) :
    (afterPoll env gl s).1.r = gl.r ∧ (afterPoll env gl s).1.g = gl.g ∧
    (afterPoll env gl s).1.b = gl.b ∧ (afterPoll env gl s).1.c = gl.c := by
  simp [afterPoll, h]

theorem linesOf_afterPoll (env : Sensors) (gl : Globals) (k : Nat) :
    linesOf (afterPoll env gl (exitState env k)).2 =
      [(afterPoll env gl (exitState env k)).1.linebuf_all] := by
  rw [afterPoll_trace]
  have h : ∀ t : List Event, linesOf (Event.wdtReload :: t) = linesOf t := by
    intro t; simp [linesOf]
  have h2 : ∀ (a : Bool) (t : List Event), linesOf (Event.colorAvailable a :: t) = linesOf t := by
    intro a t; simp [linesOf]
  rw [h, linesOf_append, linesOf_polls, List.nil_append, h2]
  by_cases hk : k ≤ APDS_MAX <;> simp [tailTrace, hk, linesOf]

theorem availChecks_afterPoll (env : Sensors) (gl : Globals) (k : Nat) :
    availChecks (afterPoll env gl (exitState env k)).2 = k + 1 := by
  rw [afterPoll_trace]
  have h : ∀ t : List Event, availChecks (Event.wdtReload :: t) = availChecks t := by
    intro t; simp [availChecks]
  have h2 : ∀ (a : Bool) (t : List Event),
      availChecks (Event.colorAvailable a :: t) = availChecks t + 1 := by
    intro a t; simp [availChecks]
  rw [h, availChecks_append, availChecks_polls, h2]
  by_cases hk : k ≤ APDS_MAX <;> simp [tailTrace, hk, availChecks]

theorem totalDelay_afterPoll (env : Sensors) (gl : Globals) (k : Nat) :
    totalDelay (afterPoll env gl (exitState env k)).2 =
      200 * k + (if k ≤ APDS_MAX then srelax else 0) + 3 * srelax + endrelax := by
  rw [afterPoll_trace]
  have h : ∀ t : List Event, totalDelay (Event.wdtReload :: t) = totalDelay t := by
    intro t; simp [totalDelay, Event.delayMs]
  have h2 : ∀ (a : Bool) (t : List Event),
      totalDelay (Event.colorAvailable a :: t) = totalDelay t := by
    intro a t; simp [totalDelay, Event.delayMs]
  rw [h, totalDelay_append, totalDelay_polls, h2]
  by_cases hk : k ≤ APDS_MAX <;> simp [tailTrace, hk, totalDelay, Event.delayMs] <;> omega

theorem readColor_mem_afterPoll (env : Sensors) (gl : Globals) (k : Nat) :
    Event.readColor ∈ (afterPoll env gl (exitState env k)).2 ↔ k ≤ APDS_MAX := by
  rw [afterPoll_trace]
  constructor
  · intro h
    by_contra hk
    simp only [List.mem_cons, List.mem_append, tailTrace, hk, if_false, List.nil_append] at h
    rcases h with h | h | h | h
    · cases h
    · rcases mem_polls h with h | h <;> cases h
    · cases h
    · simp at h
  · intro hk
    simp [tailTrace, hk]

/-! ## The formatted line -/

theorem digitChar_isDigit (n : Nat) : (Nat.digitChar (n % 10)).isDigit = true := by
  have h : n % 10 < 10 := Nat.mod_lt _ (by decide)
  generalize n % 10 = d at h
  interval_cases d <;> decide

theorem toDigitsCore_isDigit :
    ∀ (fuel n : Nat) (acc : List Char), (∀ ch ∈ acc, ch.isDigit = true) →
      ∀ ch ∈ Nat.toDigitsCore 10 fuel n acc, ch.isDigit = true := by
  intro fuel
  induction fuel with
  | zero =>
    intro n acc hacc ch hch
    simp only [Nat.toDigitsCore] at hch
    exact hacc ch hch
  | succ f ih =>
    intro n acc hacc ch hch
    simp only [Nat.toDigitsCore] at hch
    have hcons : ∀ x ∈ Nat.digitChar (n % 10) :: acc, x.isDigit = true := by
      intro x hx
      rcases List.mem_cons.mp hx with hx | hx
      · rw [hx]; exact digitChar_isDigit n
      · exact hacc x hx
    split at hch
    · exact hcons ch hch
    · exact ih (n / 10) _ hcons ch hch

theorem repr_isDigit (n : Nat) : ∀ ch ∈ (Nat.repr n).data, ch.isDigit = true := by
  intro ch hch
  simp only [Nat.repr, Nat.toDigits, List.asString] at hch
  exact toDigitsCore_isDigit _ _ [] (by simp) ch hch

theorem zeroPad_data (w : Nat) (s : String) :
    (zeroPad w s).data = List.replicate (w - s.length) '0' ++ s.data := by
  simp [zeroPad]

/-- No character of a `%.<prec>f` conversion is the letter `l`. -/
theorem fmtFixed_no_l (prec : Nat) (x : Float32) :
    ∀ ch ∈ (fmtFixed prec x).data, (ch != 'l') = true := by
  intro ch hch
  have hd : ∀ c : Char, c.isDigit = true → (c != 'l') = true := by
    intro c hc
    by_contra hne
    simp at hne
    rw [hne] at hc
    exact absurd hc (by decide)
  have hsign : ∀ neg : Bool, ch ∈ (if neg = true then "-" else "").data →
      (ch != 'l') = true := by
    intro neg h
    cases neg <;> simp at h
    rw [h]; decide
  cases x with
  | finite neg mant exp =>
    simp only [fmtFixed, String.data_append, List.mem_append] at hch
    rcases hch with (hch | hch) | hch
    · exact hsign neg hch
    · exact hd ch (repr_isDigit _ ch hch)
    · by_cases hp : prec = 0
      · simp [hp] at hch
      · simp only [hp, if_false, String.data_append, List.mem_append, zeroPad_data] at hch
        rcases hch with hch | hch | hch
        · simp at hch
          rw [hch]; decide
        · rw [List.eq_of_mem_replicate hch]; decide
        · exact hd ch (repr_isDigit _ ch hch)
  | inf neg =>
    simp only [fmtFixed, String.data_append, List.mem_append] at hch
    rcases hch with hch | hch
    · exact hsign neg hch
    · have hall : ∀ c ∈ "inf".data, (c != 'l') = true := by decide
      exact hall ch hch
  | nan neg =>
    simp only [fmtFixed, String.data_append, List.mem_append] at hch
    rcases hch with hch | hch
    · exact hsign neg hch
    · have hall : ∀ c ∈ "nan".data, (c != 'l') = true := by decide
      exact hall ch hch

theorem dropWhile_append_all {α : Type} (p : α → Bool) (xs ys : List α)
    (h : ∀ x ∈ xs, p x = true) : (xs ++ ys).dropWhile p = ys.dropWhile p := by
  induction xs with
  | nil => rfl
  | cons a t ih =>
    have ha : p a = true := h a (List.mem_cons_self a t)
    simp only [List.cons_append, List.dropWhile_cons, ha, if_true]
    exact ih (fun x hx => h x (List.mem_cons_of_mem a hx))

/-- Reading the light fields back from a formatted line gives the `%u,%u,%u,%u` text of
the four values it was formatted from. -/
theorem lightOf_sprintfLine (t h p : Float32) (r g b c : Int) :
    lightOf (sprintfLine t h p r g b c) = lightFields r g b c := by
  have hlit : ∀ ch ∈ "t-h-p,".data, (ch != 'l') = true := by decide
  have hcomma : ∀ ch ∈ ",".data, (ch != 'l') = true := by decide
  have hsplit : (sprintfLine t h p r g b c).data =
      ("t-h-p,".data ++ (fmtFixed 2 t).data ++ ",".data ++ (fmtFixed 1 h).data ++ ",".data
        ++ (fmtFixed 2 p).data ++ ",".data) ++ ('l' :: ',' :: (lightFields r g b c).data) := by
    simp [sprintfLine, String.data_append]
  have hall : ∀ ch ∈ ("t-h-p,".data ++ (fmtFixed 2 t).data ++ ",".data ++ (fmtFixed 1 h).data
      ++ ",".data ++ (fmtFixed 2 p).data ++ ",".data), (ch != 'l') = true := by
    intro ch hch
    simp only [List.mem_append] at hch
    rcases hch with (((((hch | hch) | hch) | hch) | hch) | hch) | hch
    · exact hlit ch hch
    · exact fmtFixed_no_l 2 t ch hch
    · exact hcomma ch hch
    · exact fmtFixed_no_l 1 h ch hch
    · exact hcomma ch hch
    · exact fmtFixed_no_l 2 p ch hch
    · exact hcomma ch hch
  unfold lightOf
  rw [hsplit, dropWhile_append_all _ _ _ hall]
  simp [List.dropWhile_cons]

/-! ## The digits of `%.<prec>f` -/

/-- With a non-negative exponent the value is an integer and the digits are exact. -/
theorem scaledRound_exact (prec mant : Nat) (exp : Int) (hx : 0 ≤ exp) :
    scaledRound prec mant exp = mant * 2 ^ exp.toNat * 10 ^ prec := by
  unfold scaledRound
  simp only [hx, if_true]
  ring

/-- With a negative exponent `-e` the value is `mant / 2^e`, and the digits `s` are a
nearest integer to `mant * 10^prec / 2^e`: `|s * 2^e - mant * 10^prec| ≤ 2^e / 2`. -/
theorem scaledRound_nearest (prec mant : Nat) (exp : Int) (hx : ¬ 0 ≤ exp) :
    2 * (mant * 10 ^ prec) ≤
        2 * (2 ^ (-exp).toNat * scaledRound prec mant exp) + 2 ^ (-exp).toNat ∧
    2 * (2 ^ (-exp).toNat * scaledRound prec mant exp) ≤
        2 * (mant * 10 ^ prec) + 2 ^ (-exp).toNat := by
  unfold scaledRound
  simp only [hx, if_false]
  generalize mant * 10 ^ prec = num
  have hd : 0 < 2 ^ (-exp).toNat := Nat.pos_pow_of_pos _ (by norm_num)
  generalize 2 ^ (-exp).toNat = d at hd
  have hdm := Nat.div_add_mod num d
  have hr := Nat.mod_lt num hd
  generalize num / d = q at hdm ⊢
  generalize num % d = r at hdm hr ⊢
  have hsucc : d * (q + 1) = d * q + d := by ring
  by_cases h1 : 2 * r < d
  · simp only [h1, if_true]
    omega
  · by_cases h2 : d < 2 * r
    · simp only [h1, h2, if_true, if_false]
      omega
    · by_cases h3 : q % 2 = 0
      · simp only [h1, h2, h3, if_true, if_false]
        omega
      · simp only [h1, h2, h3, if_false]
        omega

/-- The three `float`s of the end-to-end scenario are binary32 values within half a unit
in the last place of 23.456, 41.23 and 1013.2567. -/
theorem scenario_values_nearest :
    f23_456.isBinary32 ∧ f41_23.isBinary32 ∧ f1013_2567.isBinary32 ∧
    2 * ((12297699 * 1000 : Int) - 23456 * 2 ^ 19).natAbs ≤ 1000 ∧
    2 * ((10808197 * 100 : Int) - 4123 * 2 ^ 18).natAbs ≤ 100 ∧
    2 * ((16601198 * 10000 : Int) - 10132567 * 2 ^ 14).natAbs ≤ 10000 := by
  decide

/-! ## Width of the conversions -/

theorem fmtU_length (v : Int) : (fmtU v).length ≤ 10 := by
  unfold fmtU
  apply Nat.repr_length _ 10 (by decide)
  have h1 : v % 2 ^ 32 < 2 ^ 32 := Int.emod_lt_of_pos v (by norm_num)
  have h2 : 0 ≤ v % 2 ^ 32 := Int.emod_nonneg v (by norm_num)
  norm_num at h1 h2 ⊢
  omega

theorem scaledRound_le_of_neg (prec mant : Nat) (exp : Int) (hx : ¬ 0 ≤ exp) :
    scaledRound prec mant exp ≤ mant * 10 ^ prec := by
  unfold scaledRound
  simp only [hx, if_false]
  generalize mant * 10 ^ prec = num
  have hk : 1 ≤ (-exp).toNat := by omega
  have hd : 2 ≤ 2 ^ (-exp).toNat := by
    calc 2 = 2 ^ 1 := by norm_num
      _ ≤ 2 ^ (-exp).toNat := Nat.pow_le_pow_right (by norm_num) hk
  generalize 2 ^ (-exp).toNat = d at hd
  have hdm := Nat.div_add_mod num d
  have hq : num / d ≤ d * (num / d) := Nat.le_mul_of_pos_left _ (by omega)
  split
  · omega
  · split
    · omega
    · split <;> omega

theorem scaledRound_div_lt (prec mant : Nat) (exp : Int)
    (hm : mant < 2 ^ 24) (he : exp ≤ 104) :
    scaledRound prec mant exp / 10 ^ prec < 10 ^ 39 := by
  have hpos : 0 < 10 ^ prec := Nat.pos_pow_of_pos _ (by norm_num)
  by_cases h0 : 0 ≤ exp
  · have hs : scaledRound prec mant exp = 10 ^ prec * (mant * 2 ^ exp.toNat) := by
      unfold scaledRound
      simp only [h0, if_true]
      ring
    rw [hs, Nat.mul_div_cancel_left _ hpos]
    have h2 : 2 ^ exp.toNat ≤ 2 ^ 104 :=
      Nat.pow_le_pow_right (by norm_num) (by omega)
    calc mant * 2 ^ exp.toNat ≤ mant * 2 ^ 104 := Nat.mul_le_mul_left _ h2
      _ < 2 ^ 24 * 2 ^ 104 := Nat.mul_lt_mul_of_pos_right hm (by norm_num)
      _ < 10 ^ 39 := by norm_num
  · have h1 := scaledRound_le_of_neg prec mant exp h0
    calc scaledRound prec mant exp / 10 ^ prec ≤ mant * 10 ^ prec / 10 ^ prec :=
          Nat.div_le_div_right h1
      _ = mant := Nat.mul_div_cancel _ hpos
      _ < 2 ^ 24 := hm
      _ < 10 ^ 39 := by norm_num

theorem zeroPad_length (w : Nat) (s : String) (h : s.length ≤ w) :
    (zeroPad w s).length = w := by
  simp [zeroPad, String.length_append]
  omega

/-- A `%.<prec>f` conversion of a finite binary32 value has at most a sign, 39 integer
digits, the point and `prec` decimals. -/
theorem fmtFixed_length (prec : Nat) (x : Float32) (hx : x.isBinary32) (hp : 0 < prec) :
    (fmtFixed prec x).length ≤ 41 + prec := by
  cases x with
  | finite neg mant exp =>
    obtain ⟨hm, _, he⟩ := hx
    have hpos : 0 < 10 ^ prec := Nat.pos_pow_of_pos _ (by norm_num)
    have h1 : (Nat.repr (scaledRound prec mant exp / 10 ^ prec)).length ≤ 39 :=
      Nat.repr_length _ 39 (by decide) (scaledRound_div_lt prec mant exp hm he)
    have h2 : (Nat.repr (scaledRound prec mant exp % 10 ^ prec)).length ≤ prec :=
      Nat.repr_length _ prec hp (Nat.mod_lt _ hpos)
    have h3 := zeroPad_length prec _ h2
    have h4 : (if neg = true then "-" else "").length ≤ 1 := by
      cases neg <;> decide
    have hp0 : prec ≠ 0 := by omega
    simp only [fmtFixed, hp0, if_false, String.length_append, h3]
    have h5 : ".".length = 1 := rfl
    omega
  | inf neg => exact absurd hx (fun h => h)
  | nan neg => exact absurd hx (fun h => h)

/-- The formatted line has at most 182 characters when the three `float`s are finite
binary32 values (the four `%u` fields have at most ten digits each). -/
theorem sprintfLine_length (t h p : Float32) (r g b c : Int)
    (ht : t.isBinary32) (hh : h.isBinary32) (hp : p.isBinary32) :
    (sprintfLine t h p r g b c).length ≤ 182 := by
  have h1 := fmtFixed_length 2 t ht (by decide)
  have h2 := fmtFixed_length 1 h hh (by decide)
  have h3 := fmtFixed_length 2 p hp (by decide)
  have hr := fmtU_length r
  have hg := fmtU_length g
  have hb := fmtU_length b
  have hc := fmtU_length c
  have l1 : "t-h-p,".length = 6 := rfl
  have l2 : ",".length = 1 := rfl
  have l3 : ",l,".length = 3 := rfl
  simp only [sprintfLine, lightFields, String.length_append, l1, l2, l3]
  omega

/-! ## Fields of the line -/

theorem toDigitsCore_length_ge :
    ∀ (fuel n : Nat) (acc : List Char),
      acc.length ≤ (Nat.toDigitsCore 10 fuel n acc).length := by
  intro fuel
  induction fuel with
  | zero =>
    intro n acc
    simp [Nat.toDigitsCore]
  | succ f ih =>
    intro n acc
    simp only [Nat.toDigitsCore]
    split
    · simp
    · exact Nat.le_trans (by simp) (ih (n / 10) (Nat.digitChar (n % 10) :: acc))

theorem repr_ne_nil (n : Nat) : (Nat.repr n).data ≠ [] := by
  intro h
  have hlen := toDigitsCore_length_ge n (n / 10) [Nat.digitChar (n % 10)]
  simp only [Nat.repr, Nat.toDigits, List.asString, Nat.toDigitsCore] at h
  split at h
  · cases h
  · rw [h] at hlen
    simp at hlen

/-- Every character of a `%.<prec>f` conversion is a digit, the sign, the point, or a
letter of `inf` or `nan`. -/
theorem fmtFixed_chars (prec : Nat) (x : Float32) :
    ∀ ch ∈ (fmtFixed prec x).data,
      ch.isDigit = true ∨ ch = '-' ∨ ch = '.' ∨ ch ∈ ['i', 'n', 'f', 'a'] := by
  intro ch hch
  have hsign : ∀ neg : Bool, ch ∈ (if neg = true then "-" else "").data → ch = '-' := by
    intro neg h
    cases neg <;> simp at h
    exact h
  cases x with
  | finite neg mant exp =>
    simp only [fmtFixed, String.data_append, List.mem_append] at hch
    rcases hch with (hch | hch) | hch
    · exact Or.inr (Or.inl (hsign neg hch))
    · exact Or.inl (repr_isDigit _ ch hch)
    · by_cases hp : prec = 0
      · simp [hp] at hch
      · simp only [hp, if_false, String.data_append, List.mem_append, zeroPad_data] at hch
        rcases hch with hch | hch | hch
        · simp at hch
          exact Or.inr (Or.inr (Or.inl hch))
        · rw [List.eq_of_mem_replicate hch]
          exact Or.inl (by decide)
        · exact Or.inl (repr_isDigit _ ch hch)
  | inf neg =>
    simp only [fmtFixed, String.data_append, List.mem_append] at hch
    rcases hch with hch | hch
    · exact Or.inr (Or.inl (hsign neg hch))
    · have hall : ∀ c ∈ "inf".data, c ∈ ['i', 'n', 'f', 'a'] := by decide
      exact Or.inr (Or.inr (Or.inr (hall ch hch)))
  | nan neg =>
    simp only [fmtFixed, String.data_append, List.mem_append] at hch
    rcases hch with hch | hch
    · exact Or.inr (Or.inl (hsign neg hch))
    · have hall : ∀ c ∈ "nan".data, c ∈ ['i', 'n', 'f', 'a'] := by decide
      exact Or.inr (Or.inr (Or.inr (hall ch hch)))

theorem fmtFixed_no_comma (prec : Nat) (x : Float32) : ',' ∉ (fmtFixed prec x).data := by
  intro h
  rcases fmtFixed_chars prec x ',' h with h1 | h1 | h1 | h1
  · exact absurd h1 (by decide)
  · exact absurd h1 (by decide)
  · exact absurd h1 (by decide)
  · exact absurd h1 (by decide)

theorem fmtU_no_comma (v : Int) : ',' ∉ (fmtU v).data := by
  intro h
  exact absurd (repr_isDigit _ ',' h) (by decide)

theorem splitCommas_single (a : List Char) (ha : ',' ∉ a) : splitCommas a = [a] := by
  induction a with
  | nil => rfl
  | cons ch t ih =>
    have hne : ch ≠ ',' := fun h => ha (h ▸ List.mem_cons_self ch t)
    have ht : ',' ∉ t := fun h => ha (List.mem_cons_of_mem ch h)
    simp only [splitCommas, hne, if_false, ih ht]

theorem splitCommas_append (a rest : List Char) (ha : ',' ∉ a) :
    splitCommas (a ++ ',' :: rest) = a :: splitCommas rest := by
  induction a with
  | nil => simp [splitCommas]
  | cons ch t ih =>
    have hne : ch ≠ ',' := fun h => ha (h ▸ List.mem_cons_self ch t)
    have ht : ',' ∉ t := fun h => ha (List.mem_cons_of_mem ch h)
    have hstep : splitCommas (ch :: (t ++ ',' :: rest)) =
        (match splitCommas (t ++ ',' :: rest) with
          | [] => [[ch]]
          | f :: fs => (ch :: f) :: fs) := by
      simp only [splitCommas, hne, if_false]
    rw [List.cons_append, hstep, ih ht]

/-- The comma-separated fields of the formatted line are the tag, the three conversions
of the `float`s, the tag `l` and the four `%u` conversions, in this order. -/
theorem fieldsOf_sprintfLine (t h p : Float32) (r g b c : Int) :
    fieldsOf (sprintfLine t h p r g b c) =
      ["t-h-p", fmtFixed 2 t, fmtFixed 1 h, fmtFixed 2 p, "l",
       fmtU r, fmtU g, fmtU b, fmtU c] := by
  have hdata : (sprintfLine t h p r g b c).data =
      "t-h-p".data ++ ',' :: ((fmtFixed 2 t).data ++ ',' :: ((fmtFixed 1 h).data ++ ',' ::
        ((fmtFixed 2 p).data ++ ',' :: ("l".data ++ ',' :: ((fmtU r).data ++ ',' ::
          ((fmtU g).data ++ ',' :: ((fmtU b).data ++ ',' :: (fmtU c).data))))))) := by
    simp [sprintfLine, lightFields, String.data_append]
  have htag : ',' ∉ "t-h-p".data := by decide
  have hl : ',' ∉ "l".data := by decide
  unfold fieldsOf
  rw [hdata, splitCommas_append _ _ htag, splitCommas_append _ _ (fmtFixed_no_comma 2 t),
    splitCommas_append _ _ (fmtFixed_no_comma 1 h),
    splitCommas_append _ _ (fmtFixed_no_comma 2 p), splitCommas_append _ _ hl,
    splitCommas_append _ _ (fmtU_no_comma r), splitCommas_append _ _ (fmtU_no_comma g),
    splitCommas_append _ _ (fmtU_no_comma b), splitCommas_single _ (fmtU_no_comma c)]
  rfl

theorem isUnsignedText_fmtU (v : Int) : isUnsignedText (fmtU v) = true := by
  unfold isUnsignedText fmtU
  have h1 := repr_ne_nil (v % 2 ^ 32).toNat
  have h2 := repr_isDigit (v % 2 ^ 32).toNat
  simp only [Bool.and_eq_true, Bool.not_eq_true', List.isEmpty_eq_false, List.all_eq_true]
  exact ⟨h1, h2⟩

theorem isFixedText_of_parts (prec : Nat) (s : String) (neg : Bool) (ip fr : List Char)
    (hs : s.data = (if neg = true then "-" else "").data ++ ip ++ '.' :: fr)
    (hip : ip ≠ []) (hipd : ∀ ch ∈ ip, ch.isDigit = true)
    (hfr : fr.length = prec) (hfrd : ∀ ch ∈ fr, ch.isDigit = true) :
    isFixedText prec s = true := by
  have hbody : (if s.data.head? = some '-' then s.data.tail else s.data) = ip ++ '.' :: fr := by
    cases neg with
    | true =>
      have h1 : s.data = '-' :: (ip ++ '.' :: fr) := by simpa using hs
      rw [h1]
      simp
    | false =>
      have h1 : s.data = ip ++ '.' :: fr := by simpa using hs
      rw [h1]
      cases ip with
      | nil => exact absurd rfl hip
      | cons a t =>
        have ha : a ≠ '-' := by
          intro h
          have := hipd a (List.mem_cons_self a t)
          rw [h] at this
          exact absurd this (by decide)
        simp [ha]
  have hpoint : Char.isDigit '.' = false := by decide
  have hdrop : (ip ++ '.' :: fr).dropWhile Char.isDigit = '.' :: fr := by
    rw [List.dropWhile_append_of_pos hipd, List.dropWhile_cons, hpoint]
    rfl
  have htake : (ip ++ '.' :: fr).takeWhile Char.isDigit = ip := by
    rw [List.takeWhile_append_of_pos hipd, List.takeWhile_cons, hpoint]
    simp
  unfold isFixedText
  simp only [hbody, hdrop, htake]
  simp only [Bool.and_eq_true, beq_self_eq_true, Bool.not_eq_true', List.isEmpty_eq_false,
    beq_iff_eq, List.all_eq_true, true_and]
  exact ⟨⟨hip, hfr⟩, hfrd⟩

/-- The conversion `%.<prec>f` of a finite value is a decimal number with exactly `prec`
decimals. -/
theorem isFixedText_fmtFixed (prec : Nat) (x : Float32) (hx : x.isFinite = true)
    (hp : 0 < prec) : isFixedText prec (fmtFixed prec x) = true := by
  cases x with
  | finite neg mant exp =>
    have hpos : 0 < 10 ^ prec := Nat.pos_pow_of_pos _ (by norm_num)
    have hp0 : prec ≠ 0 := by omega
    have h2 : (Nat.repr (scaledRound prec mant exp % 10 ^ prec)).length ≤ prec :=
      Nat.repr_length _ prec hp (Nat.mod_lt _ hpos)
    have h3 := zeroPad_length prec _ h2
    refine isFixedText_of_parts prec _ neg
      (Nat.repr (scaledRound prec mant exp / 10 ^ prec)).data
      (zeroPad prec (Nat.repr (scaledRound prec mant exp % 10 ^ prec))).data
      ?_ (repr_ne_nil _) (repr_isDigit _) h3 ?_
    · simp [fmtFixed, hp0, String.data_append]
    · intro ch hch
      rw [zeroPad_data, List.mem_append] at hch
      rcases hch with hch | hch
      · rw [List.eq_of_mem_replicate hch]; decide
      · exact repr_isDigit _ ch hch
  | inf neg => cases hx
  | nan neg => cases hx

/-- The formatted line of three finite `float`s is well formed. -/
theorem wellFormedLine_sprintfLine (t h p : Float32) (r g b c : Int)
    (ht : t.isFinite = true) (hh : h.isFinite = true) (hp : p.isFinite = true) :
    wellFormedLine (sprintfLine t h p r g b c) = true := by
  unfold wellFormedLine
  rw [fieldsOf_sprintfLine]
  simp only [isFixedText_fmtFixed 2 t ht (by decide), isFixedText_fmtFixed 1 h hh (by decide),
    isFixedText_fmtFixed 2 p hp (by decide), isUnsignedText_fmtU, beq_self_eq_true,
    Bool.and_self]

/-! ## Any returning iteration -/

theorem whileFuel_some (env : Sensors) :
    ∀ (fuel : Nat) (s s1 : Poll), whileFuel (pollCond env) pollBody fuel s = some s1 →
      ∃ k, s1 = pollExit env s k := by
  intro fuel
  induction fuel with
  | zero =>
    intro s s1 h
    simp [whileFuel] at h
  | succ n ih =>
    intro s s1 h
    cases hans : env.colorAvailable s.calls with
    | true =>
      refine ⟨0, ?_⟩
      simp [whileFuel, pollCond, hans] at h
      simp [pollExit, polls, hans, ← h]
    | false =>
      by_cases hle : s.apds_loop ≤ APDS_MAX
      · have hc : pollCond env s = (true, (pollCond env s).2) := by
          simp [pollCond, hans, hle]
        rw [whileFuel, hc] at h
        simp only [] at h
        obtain ⟨k, hk⟩ := ih _ _ h
        refine ⟨k + 1, ?_⟩
        rw [hk]
        simp [pollExit, pollBody, pollCond, polls, hans, Nat.add_assoc, Nat.add_comm 1 k]
      · refine ⟨0, ?_⟩
        simp [whileFuel, pollCond, hans, hle] at h
        simp [pollExit, polls, hans, ← h]

/-- Whatever the fuel, an iteration that returns is `afterPoll` run from the exit state
of some number of unsuccessful rounds. -/
theorem loop_some (fuel : Nat) (env : Sensors) (gl g1 : Globals) (t1 : List Event)
    (h : loop fuel env gl = some (g1, t1)) :
    ∃ k, (g1, t1) = afterPoll env gl (exitState env k) := by
  unfold loop at h
  cases hw : whileFuel (pollCond env) pollBody fuel ⟨0, 0, [Event.wdtReload]⟩ with
  | none => simp [hw] at h
  | some s =>
    simp only [hw, Option.some.injEq] at h
    obtain ⟨k, hk⟩ := whileFuel_some env fuel _ s hw
    refine ⟨k, ?_⟩
    rw [← h, hk]
    simp [pollExit, exitState]

/-- The line an iteration prints is the `sprintf` of the globals it leaves behind. -/
theorem loop_line (fuel : Nat) (env : Sensors) (gl g1 : Globals) (t1 : List Event)
    (h : loop fuel env gl = some (g1, t1)) :
    linesOf t1 = [sprintfLine g1.temperature g1.humidity g1.pressure g1.r g1.g g1.b g1.c] := by
  obtain ⟨k, hk⟩ := loop_some fuel env gl g1 t1 h
  have h1 : g1 = (afterPoll env gl (exitState env k)).1 := congrArg Prod.fst hk
  have h2 : t1 = (afterPoll env gl (exitState env k)).2 := congrArg Prod.snd hk
  rw [h2, linesOf_afterPoll, afterPoll_linebuf, ← h1]

/-! ## The availability checks of one iteration -/

/-- Every iteration returns and calls `colorAvailable()` at most `APDS_MAX + 2 = 10` times. -/
theorem loop_availChecks_le (fuel : Nat) (env : Sensors) (gl : Globals) :
    ∃ g t, loop (fuel + (APDS_MAX + 2)) env gl = some (g, t) ∧
      1 ≤ availChecks t ∧ availChecks t ≤ APDS_MAX + 2 := by
  obtain ⟨k, hk, hloop, _, _⟩ := loop_spec fuel env gl
  refine ⟨(afterPoll env gl (exitState env k)).1, (afterPoll env gl (exitState env k)).2,
    hloop, ?_, ?_⟩ <;> rw [availChecks_afterPoll] <;> omega

/-- C1, evaluated on the sketch: when `colorAvailable()` answers `false` at every call, one
`loop()` iteration returns after ten `colorAvailable()` calls, which is `APDS_MAX + 2` and
not within the `APDS_MAX + 1 = 9` calls of the claim. -/
theorem checks_when_never_available (fuel : Nat) (gl : Globals) :
    ∃ g t, loop (fuel + (APDS_MAX + 2)) (scenario neverAvailable) gl = some (g, t) ∧
      availChecks t = 10 ∧ ¬ availChecks t ≤ APDS_MAX + 1 := by
  obtain ⟨k, hk, hloop, _, hlast⟩ := loop_spec fuel (scenario neverAvailable) gl
  have h9 : k = APDS_MAX + 1 := by
    rcases hlast with h | h
    · simp [scenario, neverAvailable] at h
    · exact h
  refine ⟨(afterPoll (scenario neverAvailable) gl (exitState (scenario neverAvailable) k)).1,
    (afterPoll (scenario neverAvailable) gl (exitState (scenario neverAvailable) k)).2,
    hloop, ?_, ?_⟩ <;> rw [availChecks_afterPoll, h9] <;> decide

/-- The waits of the readiness loop alone add up to at most `(APDS_MAX + 1) * 200` ms. -/
theorem poll_delay_le (fuel : Nat) (env : Sensors) :
    ∃ s, whileFuel (pollCond env) pollBody (fuel + (APDS_MAX + 2)) ⟨0, 0, []⟩ = some s ∧
      totalDelay s.trace ≤ (APDS_MAX + 1) * 200 := by
  obtain ⟨k, hk, hw, _, _⟩ :=
    whileFuel_poll env (fuel + (APDS_MAX + 2)) ⟨0, 0, []⟩ (by simp) (by simp)
  refine ⟨_, hw, ?_⟩
  simp only [pollExit, List.nil_append, totalDelay_append, totalDelay_polls]
  simp [totalDelay, Event.delayMs] at hk ⊢
  omega

/-- C5, evaluated on the sketch: when `colorAvailable()` answers `false` at every call, the
readiness loop still runs its body with `apds_loop = APDS_MAX`, leaves with
`apds_loop = APDS_MAX + 1` and has waited `9 * 200 = 1800` ms, more than
`APDS_MAX * 200 = 1600` ms. -/
theorem poll_delay_when_never_available :
    ∃ s, whileFuel (pollCond (scenario neverAvailable)) pollBody (APDS_MAX + 2) ⟨0, 0, []⟩
        = some s ∧
      s.apds_loop = APDS_MAX + 1 ∧ totalDelay s.trace = 1800 ∧
      ¬ totalDelay s.trace ≤ APDS_MAX * 200 :=
  ⟨_, rfl, by decide, by decide, by decide⟩

/-! ## Reading the light channels -/

/-- In every iteration `readColor` is called exactly when one of the first `APDS_MAX + 1`
availability checks answered `true`; then the globals hold the values it stored, otherwise
they keep their previous values. -/
theorem loop_light (fuel : Nat) (env : Sensors) (gl : Globals) :
    ∃ g t, loop (fuel + (APDS_MAX + 2)) env gl = some (g, t) ∧
      (Event.readColor ∈ t ↔ ∃ k, k ≤ APDS_MAX ∧ env.colorAvailable k = true) ∧
      (Event.readColor ∈ t → (g.r, g.g, g.b, g.c) = env.readColor) ∧
      (Event.readColor ∉ t → (g.r, g.g, g.b, g.c) = (gl.r, gl.g, gl.b, gl.c)) := by
  obtain ⟨k, hk, hloop, hfalse, hlast⟩ := loop_spec fuel env gl
  refine ⟨(afterPoll env gl (exitState env k)).1, (afterPoll env gl (exitState env k)).2,
    hloop, ?_, ?_, ?_⟩
  · rw [readColor_mem_afterPoll]
    constructor
    · intro h
      refine ⟨k, h, ?_⟩
      rcases hlast with h1 | h1
      · exact h1
      · omega
    · rintro ⟨j, hj, hjt⟩
      by_contra hlt
      have := hfalse j (by omega)
      rw [this] at hjt
      exact Bool.noConfusion hjt
  · rw [readColor_mem_afterPoll]
    intro h
    obtain ⟨h1, h2, h3, h4⟩ := afterPoll_light_read env gl (exitState env k) h
    rw [h1, h2, h3, h4]
  · rw [readColor_mem_afterPoll]
    intro h
    obtain ⟨h1, h2, h3, h4⟩ := afterPoll_light_kept env gl (exitState env k) h
    rw [h1, h2, h3, h4]

/-- C4, evaluated on the sketch: when `colorAvailable()` answers `false` nine times and
`true` at the tenth call, the iteration has an availability check that returned `true`,
yet `readColor` is not called and `r, g, b, c` keep their previous values. -/
theorem last_check_true_not_read (fuel : Nat) (gl : Globals) :
    ∃ g t, loop (fuel + (APDS_MAX + 2)) (scenario (availableFrom 9)) gl = some (g, t) ∧
      Event.colorAvailable true ∈ t ∧ Event.readColor ∉ t ∧
      g.r = gl.r ∧ g.g = gl.g ∧ g.b = gl.b ∧ g.c = gl.c ∧
      linesOf t = [sprintfLine f23_456 f41_23 f1013_2567 gl.r gl.g gl.b gl.c] := by
  obtain ⟨k, hk, hloop, hfalse, hlast⟩ := loop_spec fuel (scenario (availableFrom 9)) gl
  have h9 : k = 9 := by
    rcases hlast with h | h
    · simp [scenario, availableFrom] at h
      simp [APDS_MAX] at hk
      omega
    · simpa [APDS_MAX] using h
  subst h9
  have hnot : ¬ (exitState (scenario (availableFrom 9)) 9).apds_loop ≤ APDS_MAX := by
    simp [exitState, APDS_MAX]
  obtain ⟨h1, h2, h3, h4⟩ := afterPoll_light_kept (scenario (availableFrom 9)) gl _ hnot
  obtain ⟨h5, h6, h7⟩ :=
    afterPoll_thp (scenario (availableFrom 9)) gl (exitState (scenario (availableFrom 9)) 9)
  refine ⟨(afterPoll (scenario (availableFrom 9)) gl (exitState (scenario (availableFrom 9)) 9)).1,
    (afterPoll (scenario (availableFrom 9)) gl (exitState (scenario (availableFrom 9)) 9)).2,
    hloop, ?_, ?_, h1, h2, h3, h4, ?_⟩
  · rw [afterPoll_trace]
    simp [scenario, availableFrom]
  · rw [readColor_mem_afterPoll]
    simp [APDS_MAX]
  · rw [linesOf_afterPoll, afterPoll_linebuf, h1, h2, h3, h4, h5, h6, h7]
    rfl

/-- C2: when `colorAvailable()` answers `false` at every check of an iteration, the
iteration returns without calling `readColor`, leaves `r, g, b, c` unchanged, and the light
fields of the line it prints are those of the line the previous iteration printed, namely
the `%u` text of the previous values. -/
theorem stale_light_when_unavailable (fuel0 fuel : Nat) (env0 env : Sensors)
    (g0 g1 : Globals) (t1 : List Event)
    (hprev : loop fuel0 env0 g0 = some (g1, t1))
    (hfalse : ∀ k, k ≤ APDS_MAX + 1 → env.colorAvailable k = false) :
    ∃ g2 t2 line1 line2, loop (fuel + (APDS_MAX + 2)) env g1 = some (g2, t2) ∧
      Event.readColor ∉ t2 ∧ g2.r = g1.r ∧ g2.g = g1.g ∧ g2.b = g1.b ∧ g2.c = g1.c ∧
      linesOf t1 = [line1] ∧ linesOf t2 = [line2] ∧
      lightOf line2 = lightOf line1 ∧ lightOf line2 = lightFields g1.r g1.g g1.b g1.c := by
  obtain ⟨k, hk, hloop, _, hlast⟩ := loop_spec fuel env g1
  have h9 : ¬ k ≤ APDS_MAX := by
    rcases hlast with h | h
    · rw [hfalse k hk] at h
      exact Bool.noConfusion h
    · omega
  have hnot : ¬ (exitState env k).apds_loop ≤ APDS_MAX := h9
  obtain ⟨h1, h2, h3, h4⟩ := afterPoll_light_kept env g1 _ hnot
  have hl1 := loop_line fuel0 env0 g0 g1 t1 hprev
  have hl2 := loop_line _ env g1 (afterPoll env g1 (exitState env k)).1
    (afterPoll env g1 (exitState env k)).2 hloop
  have hrc : Event.readColor ∉ (afterPoll env g1 (exitState env k)).2 :=
    fun h => h9 ((readColor_mem_afterPoll env g1 k).mp h)
  generalize afterPoll env g1 (exitState env k) = res at hloop h1 h2 h3 h4 hl2 hrc
  refine ⟨res.1, res.2, _, _, hloop, hrc, h1, h2, h3, h4, hl1, hl2, ?_, ?_⟩
  · rw [lightOf_sprintfLine, lightOf_sprintfLine, h1, h2, h3, h4]
  · rw [lightOf_sprintfLine, h1, h2, h3, h4]

/-- C2 at a concrete input: the previous iteration read light (10, 20, 30, 40); the next one
never sees the sensor available and prints the light fields `10,20,30,40` again. -/
theorem stale_light_example :
    lightFields prevResult.1.r prevResult.1.g prevResult.1.b prevResult.1.c = "10,20,30,40" ∧
    ∃ g2 t2 line1 line2,
      loop (0 + (APDS_MAX + 2)) (scenario neverAvailable) prevResult.1 = some (g2, t2) ∧
      Event.readColor ∉ t2 ∧ g2.r = prevResult.1.r ∧ g2.g = prevResult.1.g ∧
      g2.b = prevResult.1.b ∧ g2.c = prevResult.1.c ∧
      linesOf prevResult.2 = [line1] ∧ linesOf t2 = [line2] ∧
      lightOf line2 = lightOf line1 ∧
      lightOf line2 = lightFields prevResult.1.r prevResult.1.g prevResult.1.b prevResult.1.c :=
  ⟨by decide,
   stale_light_when_unavailable 10 0 prevScenario (scenario neverAvailable) Globals.init
    prevResult.1 prevResult.2 (by rfl) (by intro k _; rfl)⟩

/-! ## The line of one iteration -/

/-- C3, for finite values: when the three drivers return finite `float`s, the iteration
returns with `temperature`, `humidity`, `pressure` holding them and prints exactly the text
`t-h-p,` + temperature with 2 decimals + `,` + humidity with 1 decimal + `,` + pressure
with 2 decimals + `,l,` + `r`, `g`, `b`, `c` as unsigned decimals separated by commas,
formatted from the globals held after the reads; read back at its commas the line has
these nine fields in this order, the three numbers with 2, 1 and 2 decimals. With 23.456,
41.23, 1013.2567 and light (120, 98, 87, 255) available at the first check the line is
`t-h-p,23.46,41.2,1013.26,l,120,98,87,255`. -/
theorem line_format_finite (fuel : Nat) (env : Sensors) (gl : Globals)
    (ht : env.readTemperature.isFinite = true) (hh : env.readHumidity.isFinite = true)
    (hp : env.readPressure.isFinite = true) :
    (∃ g t, loop (fuel + (APDS_MAX + 2)) env gl = some (g, t) ∧
      g.temperature = env.readTemperature ∧ g.humidity = env.readHumidity ∧
      g.pressure = env.readPressure ∧
      linesOf t = ["t-h-p," ++ fmtFixed 2 g.temperature ++ "," ++ fmtFixed 1 g.humidity
        ++ "," ++ fmtFixed 2 g.pressure ++ ",l," ++
        (fmtU g.r ++ "," ++ fmtU g.g ++ "," ++ fmtU g.b ++ "," ++ fmtU g.c)] ∧
      isFixedText 2 (fmtFixed 2 g.temperature) = true ∧
      isFixedText 1 (fmtFixed 1 g.humidity) = true ∧
      isFixedText 2 (fmtFixed 2 g.pressure) = true ∧
      isUnsignedText (fmtU g.r) = true ∧ isUnsignedText (fmtU g.g) = true ∧
      isUnsignedText (fmtU g.b) = true ∧ isUnsignedText (fmtU g.c) = true ∧
      ∀ line ∈ linesOf t, wellFormedLine line = true ∧
        fieldsOf line = ["t-h-p", fmtFixed 2 g.temperature, fmtFixed 1 g.humidity,
          fmtFixed 2 g.pressure, "l", fmtU g.r, fmtU g.g, fmtU g.b, fmtU g.c]) ∧
    (∀ (fuel1 : Nat) (gl1 : Globals),
      ∃ g t, loop (fuel1 + (APDS_MAX + 2)) (scenario alwaysAvailable) gl1 = some (g, t) ∧
        linesOf t = ["t-h-p,23.46,41.2,1013.26,l,120,98,87,255"]) := by
  constructor
  · obtain ⟨k, hk, hloop, _, _⟩ := loop_spec fuel env gl
    have hl := loop_line _ env gl (afterPoll env gl (exitState env k)).1
      (afterPoll env gl (exitState env k)).2 hloop
    obtain ⟨h1, h2, h3⟩ := afterPoll_thp env gl (exitState env k)
    generalize afterPoll env gl (exitState env k) = res at hloop hl h1 h2 h3
    have ft : res.1.temperature.isFinite = true := by rw [h1]; exact ht
    have fh : res.1.humidity.isFinite = true := by rw [h2]; exact hh
    have fp : res.1.pressure.isFinite = true := by rw [h3]; exact hp
    refine ⟨res.1, res.2, hloop, h1, h2, h3, hl,
      isFixedText_fmtFixed 2 _ ft (by decide), isFixedText_fmtFixed 1 _ fh (by decide),
      isFixedText_fmtFixed 2 _ fp (by decide), isUnsignedText_fmtU _, isUnsignedText_fmtU _,
      isUnsignedText_fmtU _, isUnsignedText_fmtU _, ?_⟩
    intro line hline
    rw [hl, List.mem_singleton] at hline
    rw [hline]
    exact ⟨wellFormedLine_sprintfLine _ _ _ _ _ _ _ ft fh fp, fieldsOf_sprintfLine _ _ _ _ _ _ _⟩
  · intro fuel1 gl1
    obtain ⟨k, hk, hloop, hfalse, _⟩ := loop_spec fuel1 (scenario alwaysAvailable) gl1
    have h0 : k = 0 := by
      by_contra hne
      have := hfalse 0 (by omega)
      simp [scenario, alwaysAvailable] at this
    subst h0
    have hl := loop_line _ _ gl1
      (afterPoll (scenario alwaysAvailable) gl1 (exitState (scenario alwaysAvailable) 0)).1
      (afterPoll (scenario alwaysAvailable) gl1 (exitState (scenario alwaysAvailable) 0)).2
      hloop
    obtain ⟨h1, h2, h3⟩ :=
      afterPoll_thp (scenario alwaysAvailable) gl1 (exitState (scenario alwaysAvailable) 0)
    obtain ⟨h4, h5, h6, h7⟩ :=
      afterPoll_light_read (scenario alwaysAvailable) gl1
        (exitState (scenario alwaysAvailable) 0) (by simp [exitState])
    generalize afterPoll (scenario alwaysAvailable) gl1
      (exitState (scenario alwaysAvailable) 0) = res at hloop hl h1 h2 h3 h4 h5 h6 h7
    refine ⟨res.1, res.2, hloop, ?_⟩
    rw [hl, h1, h2, h3, h4, h5, h6, h7]
    decide

/-- C3 at a concrete input: the end-to-end scenario, whose three `float`s are finite, run
from the start-up globals. -/
theorem line_format_finite_example :
    (scenario alwaysAvailable).readTemperature.isFinite = true ∧
    (scenario alwaysAvailable).readHumidity.isFinite = true ∧
    (scenario alwaysAvailable).readPressure.isFinite = true ∧
    ((∃ g t, loop (0 + (APDS_MAX + 2)) (scenario alwaysAvailable) Globals.init = some (g, t) ∧
      g.temperature = (scenario alwaysAvailable).readTemperature ∧
      g.humidity = (scenario alwaysAvailable).readHumidity ∧
      g.pressure = (scenario alwaysAvailable).readPressure ∧
      linesOf t = ["t-h-p," ++ fmtFixed 2 g.temperature ++ "," ++ fmtFixed 1 g.humidity
        ++ "," ++ fmtFixed 2 g.pressure ++ ",l," ++
        (fmtU g.r ++ "," ++ fmtU g.g ++ "," ++ fmtU g.b ++ "," ++ fmtU g.c)] ∧
      isFixedText 2 (fmtFixed 2 g.temperature) = true ∧
      isFixedText 1 (fmtFixed 1 g.humidity) = true ∧
      isFixedText 2 (fmtFixed 2 g.pressure) = true ∧
      isUnsignedText (fmtU g.r) = true ∧ isUnsignedText (fmtU g.g) = true ∧
      isUnsignedText (fmtU g.b) = true ∧ isUnsignedText (fmtU g.c) = true ∧
      ∀ line ∈ linesOf t, wellFormedLine line = true ∧
        fieldsOf line = ["t-h-p", fmtFixed 2 g.temperature, fmtFixed 1 g.humidity,
          fmtFixed 2 g.pressure, "l", fmtU g.r, fmtU g.g, fmtU g.b, fmtU g.c]) ∧
    (∀ (fuel1 : Nat) (gl1 : Globals),
      ∃ g t, loop (fuel1 + (APDS_MAX + 2)) (scenario alwaysAvailable) gl1 = some (g, t) ∧
        linesOf t = ["t-h-p,23.46,41.2,1013.26,l,120,98,87,255"])) :=
  ⟨rfl, rfl, rfl,
   line_format_finite 0 (scenario alwaysAvailable) Globals.init rfl rfl rfl⟩

/-- C3 as stated fails when a driver returns a NaN: with `readTemperature` returning NaN
the iteration prints `t-h-p,nan,41.2,1013.26,l,120,98,87,255`, whose temperature field is
`nan` and not a number with 2 decimals, so the line is not well formed. -/
theorem line_format_nan :
    nanScenario.readTemperature.isFinite = false ∧
    ∃ g t, loop (APDS_MAX + 2) nanScenario Globals.init = some (g, t) ∧
      g.temperature = nanScenario.readTemperature ∧
      linesOf t = ["t-h-p,nan,41.2,1013.26,l,120,98,87,255"] ∧
      fieldsOf "t-h-p,nan,41.2,1013.26,l,120,98,87,255" =
        ["t-h-p", "nan", "41.2", "1013.26", "l", "120", "98", "87", "255"] ∧
      fmtFixed 2 g.temperature = "nan" ∧
      isFixedText 2 (fmtFixed 2 g.temperature) = false ∧
      ∀ line ∈ linesOf t, wellFormedLine line = false :=
  ⟨rfl, (afterPoll nanScenario Globals.init (exitState nanScenario 0)).1,
   (afterPoll nanScenario Globals.init (exitState nanScenario 0)).2,
   rfl, rfl, by decide, by decide, by decide, by decide, by decide⟩

/-! ## Delays and the watchdog -/

/-- C9: every iteration returns, and the `delay` arguments it executes add up to at most
1906 ms, to exactly 1906 ms when the first nine availability checks all fail, to at most
1708 ms when `readColor` is called; 1906 ms is less than the `wdt = 6` s timeout, also in
ticks of the 32768 Hz counter against the value `setup()` writes to `CRV`. -/
theorem delays_below_watchdog (fuel : Nat) (env : Sensors) (gl : Globals) :
    ∃ g t, loop (fuel + (APDS_MAX + 2)) env gl = some (g, t) ∧
      totalDelay t ≤ 1906 ∧
      ((∀ k, k ≤ APDS_MAX → env.colorAvailable k = false) →
        totalDelay t = 9 * 200 + 3 * srelax + endrelax) ∧
      (Event.readColor ∈ t → totalDelay t ≤ 1708) ∧
      (totalDelay t : Int) < wdt * 1000 ∧
      (∀ crv, Event.wdtCrv crv ∈ setupTrace → (totalDelay t : Int) * 32768 < crv * 1000) := by
  obtain ⟨k, hk, hloop, hfalse, hlast⟩ := loop_spec fuel env gl
  have hd := totalDelay_afterPoll env gl k
  have hr := readColor_mem_afterPoll env gl k
  generalize afterPoll env gl (exitState env k) = res at hloop hd hr
  simp only [APDS_MAX, srelax, endrelax] at hk hd hr hlast
  have hle : totalDelay res.2 ≤ 1906 := by
    rw [hd]; split <;> omega
  refine ⟨res.1, res.2, hloop, hle, ?_, ?_, ?_, ?_⟩
  · intro hall
    have h9 : k = 9 := by
      rcases hlast with h | h
      · by_contra hne
        have := hall k (by simp only [APDS_MAX]; omega)
        rw [this] at h
        exact Bool.noConfusion h
      · omega
    rw [hd, h9]
    simp [srelax, endrelax]
  · intro hmem
    have hk8 := hr.mp hmem
    rw [hd]
    simp only [hk8, if_true]
    omega
  · simp only [wdt]
    omega
  · intro crv hcrv
    have hc : crv = wdt * 32768 + 1 := by
      simp [setupTrace] at hcrv
      exact hcrv
    rw [hc]
    simp only [wdt]
    omega

/-! ## The line buffer -/

/-- C10: for finite binary32 `temperature`, `humidity`, `pressure` and any `int` values
`r, g, b, c`, the text the format produces has at most 199 characters, so with its
terminating NUL it fits the 200 bytes of `linebuf_all`; this holds for the line of every
iteration whose drivers return these values. -/
theorem line_fits_linebuf (t h p : Float32) (r g b c : Int)
    (ht : t.isBinary32) (hh : h.isBinary32) (hp : p.isBinary32) :
    (sprintfLine t h p r g b c).length ≤ 199 ∧
    (sprintfLine t h p r g b c).length + 1 ≤ 200 ∧
    (∀ (fuel : Nat) (env : Sensors) (gl : Globals),
      env.readTemperature = t → env.readHumidity = h → env.readPressure = p →
      ∃ g1 t1, loop (fuel + (APDS_MAX + 2)) env gl = some (g1, t1) ∧
        linesOf t1 = [g1.linebuf_all] ∧ g1.linebuf_all.length + 1 ≤ 200) := by
  have hlen := sprintfLine_length t h p r g b c ht hh hp
  refine ⟨by omega, by omega, ?_⟩
  intro fuel env gl e1 e2 e3
  obtain ⟨k, hk, hloop, _, _⟩ := loop_spec fuel env gl
  have hl := linesOf_afterPoll env gl k
  have hb := afterPoll_linebuf env gl (exitState env k)
  obtain ⟨h1, h2, h3⟩ := afterPoll_thp env gl (exitState env k)
  generalize afterPoll env gl (exitState env k) = res at hloop hl hb h1 h2 h3
  refine ⟨res.1, res.2, hloop, hl, ?_⟩
  rw [hb, h1, h2, h3, e1, e2, e3]
  have := sprintfLine_length t h p res.1.r res.1.g res.1.b res.1.c ht hh hp
  omega

set_option maxRecDepth 20000 in
/-- C10 at a concrete input, the widest line there is: three times `-FLT_MAX` and four
times `-1`, 182 characters. -/
theorem line_fits_linebuf_example :
    fNegMax.isBinary32 ∧ (sprintfLine fNegMax fNegMax fNegMax (-1) (-1) (-1) (-1)).length = 182 ∧
    ((sprintfLine fNegMax fNegMax fNegMax (-1) (-1) (-1) (-1)).length ≤ 199 ∧
    (sprintfLine fNegMax fNegMax fNegMax (-1) (-1) (-1) (-1)).length + 1 ≤ 200 ∧
    (∀ (fuel : Nat) (env : Sensors) (gl : Globals),
      env.readTemperature = fNegMax → env.readHumidity = fNegMax →
      env.readPressure = fNegMax →
      ∃ g1 t1, loop (fuel + (APDS_MAX + 2)) env gl = some (g1, t1) ∧
        linesOf t1 = [g1.linebuf_all] ∧ g1.linebuf_all.length + 1 ≤ 200)) :=
  ⟨by decide, by decide,
   line_fits_linebuf fNegMax fNegMax fNegMax (-1) (-1) (-1) (-1)
    (by decide) (by decide) (by decide)⟩

/-! ## Order of the calls -/

theorem setupTrace_index_lt {i : Nat} {e : Event} (h : setupTrace[i]? = some e) : i < 16 := by
  by_contra hge
  have hnone : setupTrace[i]? = none :=
    List.getElem?_eq_none (by simp [setupTrace]; omega)
  rw [hnone] at h
  cases h

theorem setup_arm_index (i : Nat) (e : Event) (h : setupTrace[i]? = some e)
    (harm : e.isWdtArm = true) : i ≤ 4 := by
  have hi := setupTrace_index_lt h
  interval_cases i <;> simp [setupTrace] at h <;> subst h <;>
    first
    | omega
    | exact absurd harm (by decide)

theorem setup_sensor_index (i : Nat) (e : Event) (h : setupTrace[i]? = some e)
    (hs : e.isSensorCall = true) : 6 ≤ i := by
  have hi := setupTrace_index_lt h
  interval_cases i <;> simp [setupTrace] at h <;> subst h <;>
    first
    | omega
    | exact absurd hs (by decide)

theorem wdtReload_not_mem_rest (env : Sensors) (gl : Globals) (k : Nat) :
    Event.wdtReload ∉
      polls k ++ Event.colorAvailable (env.colorAvailable k) :: tailTrace env gl k := by
  intro h
  simp only [List.mem_append, List.mem_cons] at h
  rcases h with h | h | h
  · rcases mem_polls h with h | h <;> cases h
  · cases h
  · by_cases hk : k ≤ APDS_MAX <;> simp [tailTrace, hk] at h

/-- C6: `setup()` writes the watchdog start-up registers `CONFIG`, `CRV`, `RREN`,
`TASKS_START` once each, in that order, and every one of these writes comes before every
sensor driver call of `setup()` (`HTS.begin`, `BARO.begin`, `BARO.readPressure`,
`APDS.begin`); every `loop()` iteration returns, and its first call is the write of the
reload register, made once, so it comes before every sensor driver call of the iteration. -/
theorem watchdog_precedes_sensor_calls :
    (∀ (firstPressure : Float32) (gl : Globals),
      (setup firstPressure gl).2.filter Event.isWdtArm =
        [Event.wdtConfig 1, Event.wdtCrv 196609, Event.wdtRren 1, Event.wdtTasksStart 1] ∧
      (setup firstPressure gl).2.filter Event.isSensorCall =
        [Event.htsBegin, Event.baroBegin, Event.readPressure, Event.apdsBegin] ∧
      ∀ (i j : Nat) (e1 e2 : Event), (setup firstPressure gl).2[i]? = some e1 →
        (setup firstPressure gl).2[j]? = some e2 →
        e1.isWdtArm = true → e2.isSensorCall = true → i < j) ∧
    (∀ (fuel : Nat) (env : Sensors) (gl : Globals),
      ∃ g t rest, loop (fuel + (APDS_MAX + 2)) env gl = some (g, t) ∧
        t = Event.wdtReload :: rest ∧ Event.wdtReload ∉ rest ∧
        ∀ (i : Nat) (e : Event), t[i]? = some e → e.isSensorCall = true → 0 < i) := by
  constructor
  · intro firstPressure gl
    have ha : setupTrace.filter Event.isWdtArm =
        [Event.wdtConfig 1, Event.wdtCrv 196609, Event.wdtRren 1, Event.wdtTasksStart 1] := by
      decide
    have hs : setupTrace.filter Event.isSensorCall =
        [Event.htsBegin, Event.baroBegin, Event.readPressure, Event.apdsBegin] := by
      decide
    refine ⟨ha, hs, ?_⟩
    intro i j e1 e2 h1 h2 ha hs
    have hi := setup_arm_index i e1 h1 ha
    have hj := setup_sensor_index j e2 h2 hs
    omega
  · intro fuel env gl
    obtain ⟨k, hk, hloop, _, _⟩ := loop_spec fuel env gl
    have ht := afterPoll_trace env gl k
    have hn := wdtReload_not_mem_rest env gl k
    generalize tailTrace env gl k = tl at ht hn
    generalize afterPoll env gl (exitState env k) = res at hloop ht
    refine ⟨res.1, res.2, _, hloop, ht, hn, ?_⟩
    intro i e hi hs
    cases i with
    | zero =>
      rw [ht] at hi
      simp at hi
      rw [← hi] at hs
      exact absurd hs (by decide)
    | succ n => omega

/-! ## One line per iteration -/

theorem linesOf_setupTrace : linesOf setupTrace = [] := by decide

theorem afterPoll_split (env : Sensors) (gl : Globals) (k : Nat) :
    (afterPoll env gl (exitState env k)).2 =
      beforePrint env k ++
        Event.serialPrintln (afterPoll env gl (exitState env k)).1.linebuf_all ::
        [Event.digitalWrite (afterPoll env gl (exitState env k)).1.ledState,
         Event.delay endrelax] := by
  rw [afterPoll_trace]
  by_cases h : k ≤ APDS_MAX <;> simp [beforePrint, tailTrace, h]

theorem beforePrint_facts (env : Sensors) (k : Nat) :
    linesOf (beforePrint env k) = [] ∧ availChecks (beforePrint env k) = k + 1 ∧
    (k ≤ APDS_MAX → Event.readColor ∈ beforePrint env k) ∧
    Event.readTemperature ∈ beforePrint env k ∧ Event.readHumidity ∈ beforePrint env k ∧
    Event.readPressure ∈ beforePrint env k := by
  have h : ∀ t : List Event, linesOf (Event.wdtReload :: t) = linesOf t := by
    intro t; simp [linesOf]
  have h2 : ∀ (a : Bool) (t : List Event), linesOf (Event.colorAvailable a :: t) = linesOf t := by
    intro a t; simp [linesOf]
  have h3 : ∀ t : List Event, availChecks (Event.wdtReload :: t) = availChecks t := by
    intro t; simp [availChecks]
  have h4 : ∀ (a : Bool) (t : List Event),
      availChecks (Event.colorAvailable a :: t) = availChecks t + 1 := by
    intro a t; simp [availChecks]
  refine ⟨?_, ?_, ?_, ?_, ?_, ?_⟩
  · unfold beforePrint
    rw [h, linesOf_append, linesOf_polls, List.nil_append, h2]
    by_cases hk : k ≤ APDS_MAX <;> simp [hk, linesOf]
  · unfold beforePrint
    rw [h3, availChecks_append, availChecks_polls, h4]
    by_cases hk : k ≤ APDS_MAX <;> simp [hk, availChecks]
  · intro hk
    simp [beforePrint, hk]
  · simp [beforePrint]
  · simp [beforePrint]
  · simp [beforePrint]

/-- Any number of iterations returns, and the lines printed pair off with the iterations:
each is the `sprintf` of that iteration's temperature, humidity and pressure reads and of
four light values. -/
theorem runLoops_lines (fuel : Nat) :
    ∀ (envs : List Sensors) (gl : Globals),
      ∃ g t, runLoops (fuel + (APDS_MAX + 2)) envs gl = some (g, t) ∧
        List.Forall₂ (fun env line => ∃ r g b c, line =
          sprintfLine env.readTemperature env.readHumidity env.readPressure r g b c)
          envs (linesOf t) := by
  intro envs
  induction envs with
  | nil =>
    intro gl
    exact ⟨gl, [], rfl, List.Forall₂.nil⟩
  | cons env rest ih =>
    intro gl
    obtain ⟨k, hk, hloop, _, _⟩ := loop_spec fuel env gl
    have hl := linesOf_afterPoll env gl k
    have hb := afterPoll_linebuf env gl (exitState env k)
    obtain ⟨h1, h2, h3⟩ := afterPoll_thp env gl (exitState env k)
    generalize afterPoll env gl (exitState env k) = res at hloop hl hb h1 h2 h3
    obtain ⟨g2, t2, hrun, hall⟩ := ih res.1
    refine ⟨g2, res.2 ++ t2, ?_, ?_⟩
    · simp only [runLoops, hloop, hrun]
    · rw [linesOf_append, hl]
      refine List.Forall₂.cons ⟨res.1.r, res.1.g, res.1.b, res.1.c, ?_⟩ hall
      rw [hb, h1, h2, h3]

/-- C7: every `loop()` iteration returns and prints exactly one line; the `Serial.println`
comes after all availability checks of the iteration, after `readColor` when it is called,
and after the temperature, humidity and pressure reads, no sensor call follows it, and the
line is the `sprintf` of the values just read; `setup()` prints nothing, so a run of
`setup()` and `N` iterations has printed exactly `N` lines, the `i`-th formatted from all
three reads of the `i`-th iteration. -/
theorem one_line_per_iteration :
    (∀ (fuel : Nat) (env : Sensors) (gl : Globals),
      ∃ g t pre post, loop (fuel + (APDS_MAX + 2)) env gl = some (g, t) ∧
        t = pre ++ Event.serialPrintln (sprintfLine env.readTemperature env.readHumidity
              env.readPressure g.r g.g g.b g.c) :: post ∧
        linesOf pre = [] ∧ linesOf post = [] ∧
        availChecks pre = availChecks t ∧ 1 ≤ availChecks pre ∧
        (Event.readColor ∈ t → Event.readColor ∈ pre) ∧
        Event.readTemperature ∈ pre ∧ Event.readHumidity ∈ pre ∧ Event.readPressure ∈ pre ∧
        (∀ e ∈ post, e.isSensorCall = false)) ∧
    (∀ (fuel : Nat) (firstPressure : Float32) (envs : List Sensors),
      ∃ g t, run (fuel + (APDS_MAX + 2)) firstPressure envs = some (g, t) ∧
        (linesOf t).length = envs.length ∧
        List.Forall₂ (fun env line => ∃ r g b c, line =
          sprintfLine env.readTemperature env.readHumidity env.readPressure r g b c)
          envs (linesOf t)) := by
  constructor
  · intro fuel env gl
    obtain ⟨k, hk, hloop, _, _⟩ := loop_spec fuel env gl
    have hsplit := afterPoll_split env gl k
    have hb := afterPoll_linebuf env gl (exitState env k)
    have hc := availChecks_afterPoll env gl k
    have hr := readColor_mem_afterPoll env gl k
    obtain ⟨h1, h2, h3⟩ := afterPoll_thp env gl (exitState env k)
    obtain ⟨f1, f2, f3, f4, f5, f6⟩ := beforePrint_facts env k
    generalize afterPoll env gl (exitState env k) = res at hloop hsplit hb hc hr h1 h2 h3
    rw [hb, h1, h2, h3] at hsplit
    refine ⟨res.1, res.2, beforePrint env k,
      [Event.digitalWrite res.1.ledState, Event.delay endrelax], hloop, hsplit, f1, ?_,
      ?_, ?_, ?_, f4, f5, f6, ?_⟩
    · simp [linesOf]
    · rw [hc, f2]
    · rw [f2]; omega
    · intro hmem
      exact f3 (hr.mp hmem)
    · intro e he
      simp only [List.mem_cons, List.mem_singleton, List.not_mem_nil, or_false] at he
      rcases he with he | he <;> rw [he] <;> rfl
  · intro fuel firstPressure envs
    obtain ⟨g, t, hrun, hall⟩ :=
      runLoops_lines fuel envs (setup firstPressure Globals.init).1
    refine ⟨g, setupTrace ++ t, ?_, ?_, ?_⟩
    · simp only [run, hrun]
    · rw [linesOf_append, linesOf_setupTrace, List.nil_append]
      exact hall.length_eq.symm
    · rw [linesOf_append, linesOf_setupTrace, List.nil_append]
      exact hall

/-! ## Constant sensors -/

theorem readsColor_iff (env : Sensors) :
    readsColor env = true ↔ ∃ k, k ≤ APDS_MAX ∧ env.colorAvailable k = true := by
  simp only [readsColor, List.any_eq_true, List.mem_range]
  constructor
  · rintro ⟨k, hk, h⟩
    exact ⟨k, by omega, h⟩
  · rintro ⟨k, hk, h⟩
    exact ⟨k, by omega, h⟩

/-- Every iteration returns, prints `lineOf`, and leaves `lightAfter` in `r, g, b, c`. -/
theorem loop_lineOf (fuel : Nat) (env : Sensors) (gl : Globals) :
    ∃ g t, loop (fuel + (APDS_MAX + 2)) env gl = some (g, t) ∧
      linesOf t = [lineOf env gl] ∧ (g.r, g.g, g.b, g.c) = lightAfter env gl := by
  obtain ⟨g, t, hloop, hiff, hread, hkept⟩ := loop_light fuel env gl
  have hl := loop_line _ env gl g t hloop
  obtain ⟨k, hk⟩ := loop_some _ env gl g t hloop
  have hg : g = (afterPoll env gl (exitState env k)).1 := congrArg Prod.fst hk
  obtain ⟨h1, h2, h3⟩ := afterPoll_thp env gl (exitState env k)
  rw [← hg] at h1 h2 h3
  have hlight : (g.r, g.g, g.b, g.c) = lightAfter env gl := by
    unfold lightAfter
    by_cases hr : readsColor env = true
    · rw [if_pos hr]
      exact hread (hiff.mpr ((readsColor_iff env).mp hr))
    · rw [if_neg hr]
      exact hkept (fun hmem => hr ((readsColor_iff env).mpr (hiff.mp hmem)))
  refine ⟨g, t, hloop, ?_, hlight⟩
  rw [hl, h1, h2, h3]
  unfold lineOf
  rw [← hlight]

theorem lineOf_congr (env : Sensors) (gl gl1 : Globals)
    (h : (gl1.r, gl1.g, gl1.b, gl1.c) = (gl.r, gl.g, gl.b, gl.c)) :
    lineOf env gl1 = lineOf env gl := by
  unfold lineOf lightAfter
  rw [h]

theorem lineOf_after (env : Sensors) (gl g1 : Globals)
    (h : (g1.r, g1.g, g1.b, g1.c) = lightAfter env gl) : lineOf env g1 = lineOf env gl := by
  unfold lineOf
  have : lightAfter env g1 = lightAfter env gl := by
    unfold lightAfter at h ⊢
    by_cases hr : readsColor env = true
    · simp only [hr, if_true]
    · simp only [hr] at h ⊢
      exact h
  rw [this]

theorem runLoops_replicate (fuel : Nat) (env : Sensors) :
    ∀ (n : Nat) (gl : Globals),
      ∃ g t, runLoops (fuel + (APDS_MAX + 2)) (List.replicate n env) gl = some (g, t) ∧
        linesOf t = List.replicate n (lineOf env gl) := by
  intro n
  induction n with
  | zero =>
    intro gl
    exact ⟨gl, [], rfl, rfl⟩
  | succ m ih =>
    intro gl
    obtain ⟨g1, t1, hloop, hl, hlight⟩ := loop_lineOf fuel env gl
    obtain ⟨g2, t2, hrun, hl2⟩ := ih g1
    refine ⟨g2, t1 ++ t2, ?_, ?_⟩
    · simp only [List.replicate_succ, runLoops, hloop, hrun]
    · rw [linesOf_append, hl, hl2, lineOf_after env gl g1 hlight]
      rfl

theorem lineOf_of_readsColor (env : Sensors) (gl gl1 : Globals)
    (h : readsColor env = true) : lineOf env gl1 = lineOf env gl := by
  unfold lineOf lightAfter
  simp only [h, if_true]

/-- C8, with the dependence on the held light values: for every `N` and every fixed
behaviour `env` of the drivers, `N` consecutive `loop()` iterations return and print `N`
identical lines; the line is `lineOf env gl`, a function of the drivers' answers and of the
light values `r, g, b, c` held before the first iteration, which are printed when
`readColor` is never called. The same lines are printed from any other globals with these
light values, whatever their `ledState`, and from any globals at all when one of the first
`APDS_MAX + 1` availability checks answers `true`. -/
theorem constant_sensors_identical_lines (fuel n : Nat) (env : Sensors) (gl : Globals) :
    ∃ g t, runLoops (fuel + (APDS_MAX + 2)) (List.replicate n env) gl = some (g, t) ∧
      linesOf t = List.replicate n (lineOf env gl) ∧
      (∀ gl1 : Globals, (gl1.r, gl1.g, gl1.b, gl1.c) = (gl.r, gl.g, gl.b, gl.c) →
        ∃ g1 t1, runLoops (fuel + (APDS_MAX + 2)) (List.replicate n env) gl1 = some (g1, t1) ∧
          linesOf t1 = linesOf t) ∧
      (readsColor env = true → ∀ gl1 : Globals,
        ∃ g1 t1, runLoops (fuel + (APDS_MAX + 2)) (List.replicate n env) gl1 = some (g1, t1) ∧
          linesOf t1 = linesOf t) := by
  obtain ⟨g, t, hrun, hl⟩ := runLoops_replicate fuel env n gl
  refine ⟨g, t, hrun, hl, ?_, ?_⟩
  · intro gl1 hsame
    obtain ⟨g1, t1, hrun1, hl1⟩ := runLoops_replicate fuel env n gl1
    refine ⟨g1, t1, hrun1, ?_⟩
    rw [hl1, hl, lineOf_congr env gl gl1 hsame]
  · intro hreads gl1
    obtain ⟨g1, t1, hrun1, hl1⟩ := runLoops_replicate fuel env n gl1
    refine ⟨g1, t1, hrun1, ?_⟩
    rw [hl1, hl, lineOf_of_readsColor env gl gl1 hreads]

/-- C8 as stated fails: with the same fixed drivers, a colour sensor that is never
available, two consecutive iterations print `...,l,0,0,0,0` twice when run from the
start-up globals and `...,l,10,20,30,40` twice when run after an iteration that read
light (10, 20, 30, 40); the line depends on the light values held, not only on the sensor
values. -/
theorem line_depends_on_held_light :
    ∃ g0 t0 g1 t1 g2 t2,
      loop (APDS_MAX + 2) prevScenario Globals.init = some (g0, t0) ∧
      runLoops (APDS_MAX + 2) (List.replicate 2 (scenario neverAvailable)) Globals.init
        = some (g1, t1) ∧
      runLoops (APDS_MAX + 2) (List.replicate 2 (scenario neverAvailable)) g0
        = some (g2, t2) ∧
      linesOf t1 = ["t-h-p,23.46,41.2,1013.26,l,0,0,0,0",
                    "t-h-p,23.46,41.2,1013.26,l,0,0,0,0"] ∧
      linesOf t2 = ["t-h-p,23.46,41.2,1013.26,l,10,20,30,40",
                    "t-h-p,23.46,41.2,1013.26,l,10,20,30,40"] ∧
      linesOf t1 ≠ linesOf t2 := by
  refine ⟨prevResult.1, prevResult.2, _, _, _, _, rfl, rfl, rfl, ?_, ?_, ?_⟩
  · decide
  · decide
  · decide

end Nano33
